import Mathlib

/-!
Shallow embedding of `main.py` from the GithubRepoCrawler repository and
verification of its specification.

Modelling conventions:

* A Python string is a Lean `String`; `str.split("/")` is modelled by
  `pySplit` below, which reproduces Python's `str.split` semantics for a
  one-character separator (in particular `"".split("/") == [""]`).
* `str.endswith(ext)` is modelled by `pyEndsWith` (in particular every
  string ends with `""`, as in Python).
* HTTP is modelled by an oracle `get : String → Response` giving, for each
  URL, the response the server would return, and (for the per-file raw
  fetches, which only need success/failure plus a body) by an oracle
  `fetch : String → Option String` where `none` means the request raised
  a `requests` exception (e.g. a 404 turned into an error by
  `raise_for_status`) and `some content` means it succeeded with body
  `content`.
* A Python function that may raise an exception that its callers catch is
  embedded with an `Except String` / `Option` result; an exception the
  code does not catch locally (the `IndexError` in
  `_scrape_code_for_file`) is the `none` result of `scrape_code_for_file`.
* The nondeterministic completion order of `concurrent.futures.as_completed`
  is modelled by running the sequential loop over an arbitrary permutation
  `order` of the submitted path list.
-/

/-- Python's `s.split(sep)` for a single-character separator, on the
underlying character list.  `splitOnChar sep [] = [[]]`, matching
`"".split("/") == [""]` in Python. -/
def splitOnChar (sep : Char) : List Char → List (List Char)
  | [] => [[]]
  | c :: cs =>
    match splitOnChar sep cs with
    | [] => [[]]
    | acc :: rest =>
      if c = sep then [] :: acc :: rest else (c :: acc) :: rest

/-- Python's `path.split(sep)` on Lean strings (single-character separator). -/
def pySplit (s : String) (sep : Char) : List String :=
  (splitOnChar sep s.data).map String.mk

/-- Python's `s.endswith(ext)`.  As in Python, every string ends with the
empty string. -/
def pyEndsWith (s ext : String) : Bool :=
  List.isSuffixOf ext.data s.data

/-- Number of occurrences of `pat` as a substring of `s` (number of start
positions at which `pat` matches). -/
def countOcc (s pat : String) : Nat :=
  ((List.range (s.data.length + 1)).filter
    (fun i => pat.data.isPrefixOf (s.data.drop i))).length

/-- `pat` occurs somewhere inside `s`. -/
def containsStr (s pat : String) : Bool :=
  (List.range (s.data.length + 1)).any
    (fun i => pat.data.isPrefixOf (s.data.drop i))

/-- The configuration held by a `GitHubAPI` instance (`__init__` in
`main.py`): repository owner, repository name and the extension
allow-list (defaulting to `[".md"]` is done by the caller side and does
not matter for the claims, which quantify over the list). -/
structure GitHubAPI where
  owner : String
  repo : String
  allowed_extensions : List String
deriving DecidableEq

/-- An HTTP response as far as `main.py` inspects one: status code, the
`Location` header (if present) and the body text. -/
structure Response where
  status_code : Nat
  location : Option String
  text : String

/-- The error message produced by `response.raise_for_status()` for a 4xx
or 5xx status. -/
def status_error_message (code : Nat) (url : String) : String :=
  toString code ++ " Error for url: " ++ url

/-- `GitHubAPI._make_request`: perform a GET on `url` and call
`raise_for_status`, which raises exactly when `400 <= status_code < 600`. -/
def make_request (get : String → Response) (url : String) :
    Except String Response :=
  let response := get url
  if 400 ≤ response.status_code ∧ response.status_code < 600 then
    Except.error (status_error_message response.status_code url)
  else
    Except.ok response

/-- The archive-download endpoint
`f"{BASE_URL}/repos/{owner}/{repo}/zipball/main"`. -/
def archive_endpoint (api : GitHubAPI) : String :=
  "https://api.github.com/repos/" ++ api.owner ++ "/" ++ api.repo ++
    "/zipball/main"

/-- `GitHubAPI.get_archive_url`: GET the zipball endpoint; on a 302 return
the `Location` header (a missing header is Python's uncaught `KeyError`),
otherwise return the endpoint URL itself. -/
def get_archive_url (api : GitHubAPI) (get : String → Response) :
    Except String String :=
  let url := archive_endpoint api
  match make_request get url with
  | Except.error e => Except.error e
  | Except.ok response =>
    if response.status_code = 302 then
      match response.location with
      | some redirect_url => Except.ok redirect_url
      | none => Except.error "KeyError: Location"
    else
      Except.ok url

/-- `GitHubAPI.get_all_file_paths`: resolve the archive URL, download the
archive and list its entries.  `unzip` models
`zipfile.ZipFile(BytesIO(content))` + `infolist()`: it returns the entry
names, or an error for a malformed archive. -/
def get_all_file_paths (api : GitHubAPI) (get : String → Response)
    (unzip : String → Except String (List String)) :
    Except String (List String) :=
  match get_archive_url api get with
  | Except.error e => Except.error e
  | Except.ok archive_url =>
    match make_request get archive_url with
    | Except.error e => Except.error e
    | Except.ok response => unzip response.text

/-- `path_parts` after `path_parts.pop(0)`: the '/'-separated parts of an
entry path with the synthetic top-level directory removed. -/
def strippedParts (path : String) : List String :=
  (pySplit path '/').tail

/-- The raw-content URL
`f"https://raw.githubusercontent.com/{owner}/{repo}/main/{'/'.join(path_parts)}"`. -/
def rawFileUrl (api : GitHubAPI) (path_parts : List String) : String :=
  "https://raw.githubusercontent.com/" ++ api.owner ++ "/" ++ api.repo ++
    "/main/" ++ String.intercalate "/" path_parts

/-- The start-marker line of a fragment, `\n"<url>" starts here\n`. -/
def startMarker (url : String) : String :=
  "\n\"" ++ url ++ "\" starts here\n"

/-- The end-marker line of a fragment, `\n"<filename>" ends here\n`. -/
def endMarker (file_name : String) : String :=
  "\n\"" ++ file_name ++ "\" ends here\n"

/-- The buffer built for one successfully fetched file:
`f"\n\"{url}\" starts here\n{content}\n\"{file_name}\" ends here\n"`. -/
def fileFragment (url content file_name : String) : String :=
  startMarker url ++ content ++ endMarker file_name

/-- `GitHubAPI._scrape_code_for_file`.  The first component is the result:
`some s` when the call returns the string `s`, `none` when it raises the
uncaught `IndexError` (`path_parts[-1]` on an empty list).  The second
component records the raw-content URLs actually requested by the call
(`[]` when no network request is made).  A failed fetch
(`requests.exceptions.RequestException`) is caught and turned into `""`. -/
def scrape_code_for_file (api : GitHubAPI) (fetch : String → Option String)
    (path : String) : Option String × List String :=
  let path_parts := strippedParts path
  match path_parts.getLast? with
  | none => (none, [])
  | some file_name =>
    if api.allowed_extensions.any (fun ext => pyEndsWith file_name ext) then
      let url := rawFileUrl api path_parts
      match fetch url with
      | some content => (some (fileFragment url content file_name), [url])
      | none => (some "", [url])
    else
      (some "", [])

/-- The accumulation loop of `GitHubAPI.scrape_code`
(`for future in as_completed(...): code_buffer += future.result()`),
over the completion order of the futures: append each result to the
buffer, aborting (with the re-raised exception) at the first future whose
call raised. -/
def scrapeLoop (api : GitHubAPI) (fetch : String → Option String)
    (buf : String) : List String → Option String
  | [] => some buf
  | path :: rest =>
    match (scrape_code_for_file api fetch path).1 with
    | none => none
    | some fragment => scrapeLoop api fetch (buf ++ fragment) rest

/-- `GitHubAPI.scrape_code`, given the completion order `order` of the
submitted futures (a permutation of the entry-path list): the
concatenated buffer, or `none` if some per-file call raised an uncaught
exception. -/
def scrape_code (api : GitHubAPI) (fetch : String → Option String)
    (order : List String) : Option String :=
  scrapeLoop api fetch "" order

/-- The per-path results collected by a run of `scrape_code` over a given
completion order. -/
def run_fragments (api : GitHubAPI) (fetch : String → Option String)
    (order : List String) : List (Option String) :=
  order.map (fun path => (scrape_code_for_file api fetch path).1)

/-- Outcome of the module-level script: `success buffer` means
`scraped.txt` was written with exactly `buffer`; `failure message` means
the `except Exception` handler printed the stringified error and no
output file was written. -/
inductive RunResult where
  | success (buffer : String)
  | failure (message : String)
deriving DecidableEq

/-- The message of Python's `IndexError` raised by `path_parts[-1]` on an
empty list. -/
def indexErrorMessage : String := "list index out of range"

/-- The module-level driver of `main.py`: build the entry list, scrape,
and either write the buffer or print the error.  `schedule` chooses the
completion order of the futures from the submitted path list. -/
def runMain (api : GitHubAPI) (get : String → Response)
    (unzip : String → Except String (List String))
    (fetch : String → Option String)
    (schedule : List String → List String) : RunResult :=
  match get_all_file_paths api get unzip with
  | Except.error e => RunResult.failure e
  | Except.ok file_paths =>
    match scrape_code api fetch (schedule file_paths) with
    | none => RunResult.failure indexErrorMessage
    | some code => RunResult.success code

/-! ## Helper lemmas about the embedded primitives -/

lemma splitOnChar_ne_nil (sep : Char) : ∀ l : List Char, splitOnChar sep l ≠ [] := by
  intro l
  cases l with
  | nil => simp [splitOnChar]
  | cons c cs =>
    unfold splitOnChar
    cases h : splitOnChar sep cs with
    | nil => simp
    | cons acc rest => by_cases hc : c = sep <;> simp [hc]

lemma splitOnChar_eq_singleton (sep : Char) :
    ∀ l : List Char, sep ∉ l → splitOnChar sep l = [l] := by
  intro l
  induction l with
  | nil => intro _; rfl
  | cons c cs ih =>
    intro h
    have hc : ¬c = sep := fun hh => h (hh ▸ List.mem_cons_self c cs)
    unfold splitOnChar
    rw [ih (fun hm => h (List.mem_cons_of_mem _ hm))]
    simp [hc]

lemma splitOnChar_append_sep (sep : Char) :
    ∀ l : List Char, splitOnChar sep (l ++ [sep]) = splitOnChar sep l ++ [[]] := by
  intro l
  induction l with
  | nil => simp [splitOnChar]
  | cons c cs ih =>
    show splitOnChar sep (c :: (cs ++ [sep])) = _
    unfold splitOnChar
    rw [ih]
    cases h : splitOnChar sep cs with
    | nil => exact absurd h (splitOnChar_ne_nil sep cs)
    | cons acc rest => by_cases hc : c = sep <;> simp [hc]

lemma isPrefixOf_append_self (l r : List Char) : l.isPrefixOf (l ++ r) = true := by
  induction l with
  | nil => simp [List.isPrefixOf]
  | cons c cs ih => simp [List.isPrefixOf, ih]

lemma isSuffixOf_nil_of_ne_nil (l : List Char) (h : l ≠ []) :
    List.isSuffixOf l ([] : List Char) = false := by
  unfold List.isSuffixOf
  cases hr : l.reverse with
  | nil => exact absurd (List.reverse_eq_nil_iff.mp hr) h
  | cons a as => rfl

lemma countOcc_pos (s pat : String) (i : Nat) (hi : i ≤ s.data.length)
    (h : pat.data.isPrefixOf (s.data.drop i) = true) : 1 ≤ countOcc s pat := by
  unfold countOcc
  have hmem : i ∈ (List.range (s.data.length + 1)).filter
      (fun j => pat.data.isPrefixOf (s.data.drop j)) := by
    rw [List.mem_filter]
    exact ⟨List.mem_range.mpr (Nat.lt_succ_of_le hi), h⟩
  exact List.length_pos.mpr (List.ne_nil_of_mem hmem)

lemma containsStr_of_occurrence (s pat : String) (i : Nat) (hi : i ≤ s.data.length)
    (h : pat.data.isPrefixOf (s.data.drop i) = true) : containsStr s pat = true := by
  unfold containsStr
  rw [List.any_eq_true]
  exact ⟨i, List.mem_range.mpr (Nat.lt_succ_of_le hi), h⟩

/-- Concatenation of the collected per-file results, in completion order
(a raised exception contributes nothing; `Option.getD` is only ever used
on `some` values in context). -/
def joinFragments : List (Option String) → String
  | [] => ""
  | r :: rest => r.getD "" ++ joinFragments rest

lemma scrapeLoop_eq_joinFragments (api : GitHubAPI) (fetch : String → Option String) :
    ∀ (order : List String) (buf : String),
      (∀ p ∈ order, (scrape_code_for_file api fetch p).1 ≠ none) →
      scrapeLoop api fetch buf order =
        some (buf ++ joinFragments (run_fragments api fetch order)) := by
  intro order
  induction order with
  | nil => intro buf _; simp [scrapeLoop, run_fragments, joinFragments]
  | cons p rest ih =>
    intro buf h
    unfold scrapeLoop
    cases hp : (scrape_code_for_file api fetch p).1 with
    | none => exact absurd hp (h p (List.mem_cons_self p rest))
    | some fragment =>
      show scrapeLoop api fetch (buf ++ fragment) rest =
        some (buf ++ joinFragments (run_fragments api fetch (p :: rest)))
      rw [ih (buf ++ fragment) (fun q hq => h q (List.mem_cons_of_mem _ hq))]
      simp [run_fragments, joinFragments, hp, String.append_assoc]

lemma scrapeLoop_none_of_mem (api : GitHubAPI) (fetch : String → Option String)
    (path : String) (hpath : (scrape_code_for_file api fetch path).1 = none) :
    ∀ (order : List String) (buf : String),
      path ∈ order → scrapeLoop api fetch buf order = none := by
  intro order
  induction order with
  | nil => intro buf h; cases h
  | cons p rest ih =>
    intro buf hmem
    unfold scrapeLoop
    rcases List.mem_cons.mp hmem with heq | hmem'
    · rw [← heq, hpath]
    · cases hp : (scrape_code_for_file api fetch p).1 with
      | none => rfl
      | some fragment => exact ih (buf ++ fragment) hmem'

lemma empty_append_str (s : String) : "" ++ s = s := by
  cases s with | mk d => exact congrArg String.mk rfl

lemma append_empty_str (s : String) : s ++ "" = s := by
  cases s with | mk d => exact congrArg String.mk (List.append_nil d)

/-- Case analysis of `scrape_code_for_file`: ineligible extension. -/
lemma scrape_skip_eq (api : GitHubAPI) (fetch : String → Option String)
    (path file_name : String)
    (hname : (strippedParts path).getLast? = some file_name)
    (hext : api.allowed_extensions.any (fun ext => pyEndsWith file_name ext) = false) :
    scrape_code_for_file api fetch path = (some "", []) := by
  simp [scrape_code_for_file, hname, hext]

/-- Case analysis of `scrape_code_for_file`: eligible file, successful fetch. -/
lemma scrape_success_eq (api : GitHubAPI) (fetch : String → Option String)
    (path file_name content : String)
    (hname : (strippedParts path).getLast? = some file_name)
    (hext : api.allowed_extensions.any (fun ext => pyEndsWith file_name ext) = true)
    (hfetch : fetch (rawFileUrl api (strippedParts path)) = some content) :
    scrape_code_for_file api fetch path =
      (some (fileFragment (rawFileUrl api (strippedParts path)) content file_name),
        [rawFileUrl api (strippedParts path)]) := by
  simp [scrape_code_for_file, hname, hext, hfetch]

/-- Case analysis of `scrape_code_for_file`: eligible file, failed fetch. -/
lemma scrape_fail_eq (api : GitHubAPI) (fetch : String → Option String)
    (path file_name : String)
    (hname : (strippedParts path).getLast? = some file_name)
    (hext : api.allowed_extensions.any (fun ext => pyEndsWith file_name ext) = true)
    (hfail : fetch (rawFileUrl api (strippedParts path)) = none) :
    scrape_code_for_file api fetch path =
      (some "", [rawFileUrl api (strippedParts path)]) := by
  simp [scrape_code_for_file, hname, hext, hfail]

/-- Case analysis of `scrape_code_for_file`: empty part list (the
`IndexError` of `path_parts[-1]`). -/
lemma scrape_index_error_eq (api : GitHubAPI) (fetch : String → Option String)
    (path : String) (hparts : strippedParts path = []) :
    scrape_code_for_file api fetch path = (none, []) := by
  simp [scrape_code_for_file, hparts]

/-! ## Concrete sample inputs used by the witnesses -/

def sampleApi : GitHubAPI :=
  { owner := "octo", repo := "demo", allowed_extensions := [".md"] }

def noFetch : String → Option String := fun _ => none

/-! ## The claims -/

/-- C1: for every entry-path list and fixed fetch results, the multiset of
per-file results collected by the parallel `scrape_code` (which consumes
the futures in an arbitrary completion order, i.e. an arbitrary
permutation of the entry list) equals the multiset produced by a
sequential left-to-right run over the entry list; moreover the buffer it
returns is exactly the concatenation of those results in completion
order, so parallel collection changes only concatenation order, never
which fragments are included. -/
theorem scrape_code_parallel_refines_sequential (api : GitHubAPI)
    (fetch : String → Option String) (paths order : List String)
    (h : order.Perm paths) :
    (↑(run_fragments api fetch order) : Multiset (Option String)) =
      (↑(run_fragments api fetch paths) : Multiset (Option String))
    ∧ ((∀ p ∈ order, (scrape_code_for_file api fetch p).1 ≠ none) →
        scrape_code api fetch order =
          some (joinFragments (run_fragments api fetch order))) := by
  constructor
  · exact Multiset.coe_eq_coe.mpr (h.map _)
  · intro hall
    unfold scrape_code
    rw [scrapeLoop_eq_joinFragments api fetch order "" hall,
      empty_append_str]

theorem scrape_code_parallel_refines_sequential_witness :
    (["b/y.md", "a/x.md"] : List String).Perm ["a/x.md", "b/y.md"]
    ∧ (↑(run_fragments sampleApi noFetch ["b/y.md", "a/x.md"]) :
        Multiset (Option String)) =
      ↑(run_fragments sampleApi noFetch ["a/x.md", "b/y.md"]) :=
  ⟨by decide,
    (scrape_code_parallel_refines_sequential sampleApi noFetch
      ["a/x.md", "b/y.md"] ["b/y.md", "a/x.md"] (by decide)).1⟩

/-- C2: an entry path whose file name (last segment after dropping the
synthetic top-level directory) ends with no allowed extension produces
the empty string, and no raw-content fetch is attempted for it. -/
theorem disallowed_extension_not_fetched (api : GitHubAPI)
    (fetch : String → Option String) (path file_name : String)
    (hname : (strippedParts path).getLast? = some file_name)
    (hext : ∀ ext ∈ api.allowed_extensions, pyEndsWith file_name ext = false) :
    scrape_code_for_file api fetch path = (some "", []) := by
  refine scrape_skip_eq api fetch path file_name hname ?_
  exact List.any_eq_false.mpr (fun x hx => by simp [hext x hx])

theorem disallowed_extension_not_fetched_witness :
    (strippedParts "repo-abc123/notes.txt").getLast? = some "notes.txt"
    ∧ (∀ ext ∈ sampleApi.allowed_extensions, pyEndsWith "notes.txt" ext = false)
    ∧ scrape_code_for_file sampleApi noFetch "repo-abc123/notes.txt" =
        (some "", []) :=
  ⟨by decide, by decide,
    disallowed_extension_not_fetched sampleApi noFetch "repo-abc123/notes.txt"
      "notes.txt" (by decide) (by decide)⟩

/-- C4: when the per-file fetch of an eligible file fails (the request
raises), `_scrape_code_for_file` catches the exception and returns the
empty string (after having attempted exactly that one fetch); runs whose
per-file calls all return normally complete successfully, yielding the
concatenation of the per-file results, so the failed file is silently
omitted from the buffer. -/
theorem fetch_failure_silently_skipped (api : GitHubAPI)
    (fetch : String → Option String) (path file_name : String)
    (hname : (strippedParts path).getLast? = some file_name)
    (hext : api.allowed_extensions.any (fun ext => pyEndsWith file_name ext) = true)
    (hfail : fetch (rawFileUrl api (strippedParts path)) = none) :
    scrape_code_for_file api fetch path =
      (some "", [rawFileUrl api (strippedParts path)])
    ∧ ∀ order : List String,
        (∀ p ∈ order, (scrape_code_for_file api fetch p).1 ≠ none) →
        scrape_code api fetch order =
          some (joinFragments (run_fragments api fetch order)) := by
  refine ⟨scrape_fail_eq api fetch path file_name hname hext hfail, ?_⟩
  intro order hall
  unfold scrape_code
  rw [scrapeLoop_eq_joinFragments api fetch order "" hall, empty_append_str]

theorem fetch_failure_silently_skipped_witness :
    (strippedParts "repo-abc123/README.md").getLast? = some "README.md"
    ∧ sampleApi.allowed_extensions.any
        (fun ext => pyEndsWith "README.md" ext) = true
    ∧ noFetch (rawFileUrl sampleApi (strippedParts "repo-abc123/README.md")) = none
    ∧ scrape_code_for_file sampleApi noFetch "repo-abc123/README.md" =
        (some "", [rawFileUrl sampleApi (strippedParts "repo-abc123/README.md")])
    ∧ scrape_code sampleApi noFetch ["repo-abc123/README.md"] =
        some (joinFragments (run_fragments sampleApi noFetch
          ["repo-abc123/README.md"])) :=
  ⟨by decide, by decide, rfl,
    (fetch_failure_silently_skipped sampleApi noFetch "repo-abc123/README.md"
      "README.md" (by decide) (by decide) rfl).1,
    (fetch_failure_silently_skipped sampleApi noFetch "repo-abc123/README.md"
      "README.md" (by decide) (by decide) rfl).2
      ["repo-abc123/README.md"] (by decide)⟩

/-- C5: if locating the archive, downloading it or parsing it as a zip
fails (the whole `get_all_file_paths` step raises with message `e`), the
run aborts before producing any output: the module-level handler prints
the stringified error `e` and no output file is written. -/
theorem archive_failure_aborts_run (api : GitHubAPI) (get : String → Response)
    (unzip : String → Except String (List String))
    (fetch : String → Option String) (schedule : List String → List String)
    (e : String)
    (h : get_all_file_paths api get unzip = Except.error e) :
    runMain api get unzip fetch schedule = RunResult.failure e
    ∧ ∀ buffer, runMain api get unzip fetch schedule ≠ RunResult.success buffer := by
  have hr : runMain api get unzip fetch schedule = RunResult.failure e := by
    unfold runMain
    rw [h]
  exact ⟨hr, fun buffer hc => by rw [hr] at hc; cases hc⟩

def c5get : String → Response :=
  fun _ => { status_code := 404, location := none, text := "" }

def c5unzip : String → Except String (List String) := fun _ => Except.ok []

def idSchedule : List String → List String := fun l => l

theorem archive_failure_aborts_run_witness :
    get_all_file_paths sampleApi c5get c5unzip =
      Except.error (status_error_message 404 (archive_endpoint sampleApi))
    ∧ runMain sampleApi c5get c5unzip noFetch idSchedule =
        RunResult.failure (status_error_message 404 (archive_endpoint sampleApi)) :=
  ⟨rfl,
    (archive_failure_aborts_run sampleApi c5get c5unzip noFetch idSchedule
      (status_error_message 404 (archive_endpoint sampleApi)) rfl).1⟩

lemma fileFragment_ne_empty (u c f : String) : fileFragment u c f ≠ "" := by
  intro h
  have hd : (fileFragment u c f).data = [] := congrArg String.data h
  rw [fileFragment, String.data_append, String.data_append] at hd
  rcases List.append_eq_nil.mp hd with ⟨hd1, _⟩
  rcases List.append_eq_nil.mp hd1 with ⟨hd2, _⟩
  rw [startMarker, String.data_append, String.data_append] at hd2
  rcases List.append_eq_nil.mp hd2 with ⟨hd3, _⟩
  rcases List.append_eq_nil.mp hd3 with ⟨hd4, _⟩
  exact absurd hd4 (by decide)

/-- C6: `get_archive_url` GETs the zipball endpoint of the default branch;
a 4xx/5xx status raises immediately (with the stringified HTTP error); a
302 returns the `Location` target; any other non-error status returns the
original endpoint URL unchanged. -/
theorem get_archive_url_spec (api : GitHubAPI) (get : String → Response)
    (resp : Response) (hresp : get (archive_endpoint api) = resp) :
    ((400 ≤ resp.status_code ∧ resp.status_code < 600) →
      get_archive_url api get =
        Except.error
          (status_error_message resp.status_code (archive_endpoint api)))
    ∧ (resp.status_code = 302 →
        ∀ target, resp.location = some target →
          get_archive_url api get = Except.ok target)
    ∧ (¬(400 ≤ resp.status_code ∧ resp.status_code < 600) →
        resp.status_code ≠ 302 →
          get_archive_url api get = Except.ok (archive_endpoint api)) := by
  refine ⟨?_, ?_, ?_⟩
  · intro hbad
    simp [get_archive_url, make_request, hresp, hbad]
  · intro h302 target hloc
    simp [get_archive_url, make_request, hresp, h302, hloc]
  · intro hok h302
    simp [get_archive_url, make_request, hresp, hok, h302]

def c6resp : Response :=
  { status_code := 302
    location := some "https://codeload.example/octo/demo/zip"
    text := "" }

def c6get : String → Response := fun _ => c6resp

theorem get_archive_url_spec_witness :
    c6get (archive_endpoint sampleApi) = c6resp
    ∧ get_archive_url sampleApi c6get =
        Except.ok "https://codeload.example/octo/demo/zip" :=
  ⟨rfl,
    (get_archive_url_spec sampleApi c6get c6resp rfl).2.1 rfl
      "https://codeload.example/octo/demo/zip" rfl⟩

def c7url : String := "https://raw.githubusercontent.com/octo/demo/main/README.md"

/-- C7: for the entry list
`["repo-abc123/README.md", "repo-abc123/src/main.go"]` with allow-list
`[".md"]`, assuming the README fetch succeeds, both completion orders
yield a buffer that is exactly the single README fragment, and the
`main.go` entry produces the empty string without any fetch being
attempted. -/
theorem scenario_readme_only (fetch : String → Option String) (content : String)
    (hfetch : fetch c7url = some content) :
    scrape_code sampleApi fetch
        ["repo-abc123/README.md", "repo-abc123/src/main.go"] =
      some (fileFragment c7url content "README.md")
    ∧ scrape_code sampleApi fetch
        ["repo-abc123/src/main.go", "repo-abc123/README.md"] =
      some (fileFragment c7url content "README.md")
    ∧ scrape_code_for_file sampleApi fetch "repo-abc123/src/main.go" =
        (some "", []) := by
  have hurl : rawFileUrl sampleApi (strippedParts "repo-abc123/README.md") =
      c7url := by decide
  have hmd : scrape_code_for_file sampleApi fetch "repo-abc123/README.md" =
      (some (fileFragment c7url content "README.md"), [c7url]) := by
    have hs := scrape_success_eq sampleApi fetch "repo-abc123/README.md"
      "README.md" content (by decide) (by decide) (by rw [hurl]; exact hfetch)
    rw [hurl] at hs
    exact hs
  have hgo : scrape_code_for_file sampleApi fetch "repo-abc123/src/main.go" =
      (some "", []) :=
    scrape_skip_eq sampleApi fetch "repo-abc123/src/main.go" "main.go"
      (by decide) (by decide)
  refine ⟨?_, ?_, hgo⟩
  · simp [scrape_code, scrapeLoop, hmd, hgo, empty_append_str, append_empty_str]
  · simp [scrape_code, scrapeLoop, hmd, hgo, empty_append_str, append_empty_str]

def c7fetch : String → Option String :=
  fun u => if u = c7url then some "# Demo\n" else none

theorem scenario_readme_only_witness :
    c7fetch c7url = some "# Demo\n"
    ∧ scrape_code sampleApi c7fetch
        ["repo-abc123/README.md", "repo-abc123/src/main.go"] =
      some (fileFragment c7url "# Demo\n" "README.md") :=
  ⟨by decide, (scenario_readme_only c7fetch "# Demo\n" (by decide)).1⟩

/-- C8: an entry path with no '/' separator (the empty string included)
makes `_scrape_code_for_file` raise `IndexError`; the handler catches only
request exceptions, so the error propagates through `scrape_code` (the
run yields no buffer) and the module-level handler reports it — the run
aborts instead of skipping the path. -/
theorem missing_separator_aborts (api : GitHubAPI)
    (fetch : String → Option String) (path : String)
    (h : '/' ∉ path.data) :
    (scrape_code_for_file api fetch path).1 = none
    ∧ (∀ order : List String, path ∈ order →
        scrape_code api fetch order = none)
    ∧ (∀ (get : String → Response)
        (unzip : String → Except String (List String))
        (schedule : List String → List String) (file_paths : List String),
        get_all_file_paths api get unzip = Except.ok file_paths →
        path ∈ schedule file_paths →
        runMain api get unzip fetch schedule =
          RunResult.failure indexErrorMessage) := by
  have hparts : strippedParts path = [] := by
    unfold strippedParts pySplit
    rw [splitOnChar_eq_singleton '/' path.data h]
    rfl
  have h1 : (scrape_code_for_file api fetch path).1 = none := by
    rw [scrape_index_error_eq api fetch path hparts]
  have h2 : ∀ order : List String, path ∈ order →
      scrape_code api fetch order = none :=
    fun order hmem => scrapeLoop_none_of_mem api fetch path h1 order "" hmem
  refine ⟨h1, h2, ?_⟩
  intro get unzip schedule file_paths hok hmem
  simp [runMain, hok, h2 (schedule file_paths) hmem]

theorem missing_separator_aborts_witness :
    ('/' ∉ ("README.md" : String).data)
    ∧ (scrape_code_for_file sampleApi noFetch "README.md").1 = none
    ∧ scrape_code sampleApi noFetch ["README.md"] = none :=
  ⟨by decide,
    (missing_separator_aborts sampleApi noFetch "README.md" (by decide)).1,
    (missing_separator_aborts sampleApi noFetch "README.md" (by decide)).2.1
      ["README.md"] (by decide)⟩

/-- C9: a directory entry (path ending in '/') has an empty stripped file
name; provided every configured extension is non-empty, the extension
check fails, so the entry returns the empty string and performs no
network request. -/
theorem directory_entry_no_fetch (api : GitHubAPI)
    (fetch : String → Option String) (path : String) (l : List Char)
    (hpath : path.data = l ++ ['/'])
    (hext : ∀ ext ∈ api.allowed_extensions, ext ≠ "") :
    scrape_code_for_file api fetch path = (some "", []) := by
  have hlast : (strippedParts path).getLast? = some "" := by
    unfold strippedParts pySplit
    rw [hpath, splitOnChar_append_sep, List.map_append]
    cases hm : (splitOnChar '/' l).map String.mk with
    | nil => exact absurd (List.map_eq_nil_iff.mp hm) (splitOnChar_ne_nil '/' l)
    | cons a rest =>
      show (rest ++ [String.mk []]).getLast? = some ""
      exact List.getLast?_concat rest
  have hany : api.allowed_extensions.any (fun ext => pyEndsWith "" ext) = false := by
    rw [List.any_eq_false]
    intro x hx
    have hxne : x.data ≠ [] := fun hh => hext x hx (String.ext hh)
    simp only [pyEndsWith]
    show ¬ List.isSuffixOf x.data [] = true
    rw [isSuffixOf_nil_of_ne_nil x.data hxne]
    simp
  exact scrape_skip_eq api fetch path "" hlast hany

theorem directory_entry_no_fetch_witness :
    ("octo-demo-abc/src/" : String).data =
      ("octo-demo-abc/src" : String).data ++ ['/']
    ∧ (∀ ext ∈ sampleApi.allowed_extensions, ext ≠ "")
    ∧ scrape_code_for_file sampleApi noFetch "octo-demo-abc/src/" =
        (some "", []) :=
  ⟨by decide, by decide,
    directory_entry_no_fetch sampleApi noFetch "octo-demo-abc/src/"
      ("octo-demo-abc/src" : String).data (by decide) (by decide)⟩

/-- C10: an eligible file fetched successfully with empty content still
produces the full marker-wrapped fragment, which is a non-empty string —
an empty file is therefore included in the buffer, unlike filtered or
failed files. -/
theorem empty_file_still_included (api : GitHubAPI)
    (fetch : String → Option String) (path file_name : String)
    (hname : (strippedParts path).getLast? = some file_name)
    (hext : api.allowed_extensions.any (fun ext => pyEndsWith file_name ext) = true)
    (hfetch : fetch (rawFileUrl api (strippedParts path)) = some "") :
    (scrape_code_for_file api fetch path).1 =
      some (fileFragment (rawFileUrl api (strippedParts path)) "" file_name)
    ∧ fileFragment (rawFileUrl api (strippedParts path)) "" file_name ≠ "" := by
  constructor
  · rw [scrape_success_eq api fetch path file_name "" hname hext hfetch]
  · exact fileFragment_ne_empty _ _ _

def c10fetch : String → Option String :=
  fun u =>
    if u = "https://raw.githubusercontent.com/octo/demo/main/empty.md" then
      some ""
    else none

theorem empty_file_still_included_witness :
    (strippedParts "repo-abc123/empty.md").getLast? = some "empty.md"
    ∧ sampleApi.allowed_extensions.any
        (fun ext => pyEndsWith "empty.md" ext) = true
    ∧ c10fetch (rawFileUrl sampleApi (strippedParts "repo-abc123/empty.md")) =
        some ""
    ∧ (scrape_code_for_file sampleApi c10fetch "repo-abc123/empty.md").1 =
        some (fileFragment
          (rawFileUrl sampleApi (strippedParts "repo-abc123/empty.md")) ""
          "empty.md") :=
  ⟨by decide, by decide, by decide,
    (empty_file_still_included sampleApi c10fetch "repo-abc123/empty.md"
      "empty.md" (by decide) (by decide) (by decide)).1⟩

/-- C3 (amended): for an eligible file whose fetch succeeds with content
`C`, the returned fragment is exactly
`\n"<url>" starts here\n` ++ `C` ++ `\n"<filename>" ends here\n` — a
start marker and an end marker surround the fetched content (each
occurring at least once), and the file name appears in the end marker.
Because the content is not escaped, the markers occur *exactly* once each
only when `C` itself contains no marker occurrence. -/
theorem fragment_format_spec (api : GitHubAPI) (fetch : String → Option String)
    (path file_name content : String)
    (hname : (strippedParts path).getLast? = some file_name)
    (hext : api.allowed_extensions.any (fun ext => pyEndsWith file_name ext) = true)
    (hfetch : fetch (rawFileUrl api (strippedParts path)) = some content) :
    (scrape_code_for_file api fetch path).1 =
      some (startMarker (rawFileUrl api (strippedParts path)) ++ content ++
        endMarker file_name)
    ∧ 1 ≤ countOcc
        (fileFragment (rawFileUrl api (strippedParts path)) content file_name)
        (startMarker (rawFileUrl api (strippedParts path)))
    ∧ 1 ≤ countOcc
        (fileFragment (rawFileUrl api (strippedParts path)) content file_name)
        (endMarker file_name)
    ∧ containsStr (endMarker file_name) file_name = true := by
  refine ⟨?_, ?_, ?_, ?_⟩
  · rw [scrape_success_eq api fetch path file_name content hname hext hfetch]
    rfl
  · generalize rawFileUrl api (strippedParts path) = u
    apply countOcc_pos _ _ 0 (Nat.zero_le _)
    rw [List.drop_zero]
    have hdata : (fileFragment u content file_name).data =
        (startMarker u).data ++ (content.data ++ (endMarker file_name).data) := by
      rw [fileFragment, String.data_append, String.data_append,
        List.append_assoc]
    rw [hdata]
    exact isPrefixOf_append_self _ _
  · generalize rawFileUrl api (strippedParts path) = u
    have hdata : (fileFragment u content file_name).data =
        ((startMarker u).data ++ content.data) ++ (endMarker file_name).data := by
      rw [fileFragment, String.data_append, String.data_append]
    apply countOcc_pos _ _ (((startMarker u).data ++ content.data).length)
    · rw [hdata, List.length_append ((startMarker u).data ++ content.data)
        (endMarker file_name).data]
      exact Nat.le_add_right _ _
    · rw [hdata, List.drop_left]
      have hp := isPrefixOf_append_self (endMarker file_name).data []
      rwa [List.append_nil] at hp
  · have hdataE : (endMarker file_name).data =
        '\n' :: '"' :: (file_name.data ++ ("\" ends here\n" : String).data) := by
      rw [endMarker, String.data_append, String.data_append]
      rfl
    apply containsStr_of_occurrence _ _ 2
    · rw [hdataE]
      simp
    · rw [hdataE]
      exact isPrefixOf_append_self _ _

def c3api : GitHubAPI :=
  { owner := "o", repo := "r", allowed_extensions := [".md"] }

def c3url : String := "https://raw.githubusercontent.com/o/r/main/a.md"

/-- A fetch oracle whose content for `a.md` is itself a start-marker
line, so the produced fragment contains the start marker twice. -/
def c3fetch : String → Option String :=
  fun u => if u = c3url then some (startMarker c3url) else none

set_option maxRecDepth 100000 in
theorem fragment_marker_duplicated :
    (scrape_code_for_file c3api c3fetch "z/a.md").1 =
      some (fileFragment c3url (startMarker c3url) "a.md")
    ∧ countOcc (fileFragment c3url (startMarker c3url) "a.md")
        (startMarker c3url) ≠ 1
    ∧ countOcc (fileFragment c3url (startMarker c3url) "a.md")
        (startMarker c3url) = 2 := by
  refine ⟨by decide, by decide, by decide⟩

theorem fragment_format_spec_witness :
    (strippedParts "repo-abc123/README.md").getLast? = some "README.md"
    ∧ sampleApi.allowed_extensions.any
        (fun ext => pyEndsWith "README.md" ext) = true
    ∧ c7fetch (rawFileUrl sampleApi (strippedParts "repo-abc123/README.md")) =
        some "# Demo\n"
    ∧ (scrape_code_for_file sampleApi c7fetch "repo-abc123/README.md").1 =
        some (startMarker
            (rawFileUrl sampleApi (strippedParts "repo-abc123/README.md")) ++
          "# Demo\n" ++ endMarker "README.md") :=
  ⟨by decide, by decide, by decide,
    (fragment_format_spec sampleApi c7fetch "repo-abc123/README.md"
      "README.md" "# Demo\n" (by decide) (by decide) (by decide)).1⟩
